import Mathlib

/-
  Verification of the image-candidate acquisition and selection pipeline of the
  pinbasket repository (pinterest_img_scraper.py and the two companion scripts).

  Strings are modelled as lists of characters.  The functions below are direct
  translations of the Python source: `_convert_to_high_res`, the image branch of
  `_handle_response`, the selection and ordering logic of `_download_images`
  (including `get_url_priority`), and the control flow of `_download_image`.
-/

set_option maxHeartbeats 1000000

/-- Python's substring test `pat in s` on strings modelled as `List Char`. -/
def isSubOf (pat : List Char) : List Char → Bool
  | [] => pat.isEmpty
  | c :: cs => pat.isPrefixOf (c :: cs) || isSubOf pat cs

/-- Fuelled core of Python `str.replace(old, new)`: replace every leftmost
non-overlapping occurrence of `pat` by `rep`.  The fuel is consumed one step per
character, so `s.length` fuel always suffices for a nonempty pattern. -/
def replaceAllFuel (pat rep : List Char) : Nat → List Char → List Char
  | _, [] => []
  | 0, s => s
  | fuel + 1, c :: cs =>
    if pat.isPrefixOf (c :: cs) then
      rep ++ replaceAllFuel pat rep fuel ((c :: cs).drop pat.length)
    else
      c :: replaceAllFuel pat rep fuel cs

/-- Python `s.replace(pat, rep)` for a nonempty pattern. -/
def replaceAll (pat rep s : List Char) : List Char :=
  replaceAllFuel pat rep s.length s

def origMarker : List Char := "/originals/".toList

def sixtyMarker : List Char := "/60x60/".toList

def seventyFiveMarker : List Char := "/75x75/".toList

/-- The resolution path segments tried, in order, by `_convert_to_high_res`. -/
def resolutionPatterns : List (List Char) :=
  ["/236x/".toList, "/474x/".toList, "/736x/".toList, "/1200x/".toList]

def pinimgLit : List Char := "https://i.pinimg.com/".toList

def pinimgOrig : List Char := "https://i.pinimg.com/originals/".toList

/-- The alternation `(?:jpg|jpeg|png|webp)` of the pinimg regular expression,
tried left to right at the current position; returns the matched length. -/
def extAt (r : List Char) : Option Nat :=
  if ("jpg".toList).isPrefixOf r then some 3
  else if ("jpeg".toList).isPrefixOf r then some 4
  else if ("png".toList).isPrefixOf r then some 3
  else if ("webp".toList).isPrefixOf r then some 4
  else none

/-- Greedy `.+\.(?:jpg|jpeg|png|webp)` against `r`: `k + 1` characters for the
`.+` part (none of them a newline), a literal dot, then the extension.  The
longest `.+` is tried first, backtracking to shorter ones.  Returns the whole
matched segment (group 3 of the regular expression). -/
def group3Search (r : List Char) : Nat → Option (List Char)
  | 0 => none
  | k + 1 =>
    if (r.take (k + 1)).all (fun c => c != '\n') && (r.get? (k + 1) == some '.') then
      match extAt (r.drop (k + 2)) with
      | some e => some (r.take (k + 2 + e))
      | none => group3Search r k
    else group3Search r k

/-- One attempt of `re.search` for the pattern
`(https://i\.pinimg\.com/)(\d+x/)(.+\.(?:jpg|jpeg|png|webp))` at the current
position.  After the literal, `\d+` can only succeed on the maximal digit run
(any shorter run is followed by another digit, not `x`). -/
def matchPinimgAt (s : List Char) : Option (List Char) :=
  if pinimgLit.isPrefixOf s then
    let rest := s.drop pinimgLit.length
    let d := rest.takeWhile Char.isDigit
    if (!d.isEmpty) && ("x/".toList).isPrefixOf (rest.drop d.length) then
      group3Search (rest.drop (d.length + 2)) (rest.drop (d.length + 2)).length
    else none
  else none

/-- `re.search` scans start positions left to right and returns the first
position where the whole pattern matches. -/
def pinimgSearchAux : Nat → List Char → Option (List Char)
  | 0, s => matchPinimgAt s
  | f + 1, s =>
    match matchPinimgAt s with
    | some g => some g
    | none =>
      match s with
      | [] => none
      | _ :: cs => pinimgSearchAux f cs

/-- Group 3 of the first match of the pinimg regular expression in `url`. -/
def pinimgSearch (url : List Char) : Option (List Char) :=
  pinimgSearchAux url.length url

/-- `_convert_to_high_res` (pinterest_img_scraper.py, lines 494-524).
`none` models the Python `None` return ("rejected: too small to qualify"). -/
def convertToHighRes (minW minH : Nat) (url : List Char) : Option (List Char) :=
  if isSubOf origMarker url then some url
  else if isSubOf sixtyMarker url || isSubOf seventyFiveMarker url then
    if 100 < minW ∨ 100 < minH then none else some url
  else
    match resolutionPatterns.find? (fun p => isSubOf p url) with
    | some p => some (replaceAll p origMarker url)
    | none =>
      match pinimgSearch url with
      | some g3 => some (pinimgOrig ++ g3)
      | none => some url

/-- A candidate as stored in `self.image_urls`: the (converted) address together
with the relevance flag.  The Python container is a set of such pairs. -/
abbrev Candidate := List Char × Bool

/-- Python `set.add` on the candidate set, modelled as duplicate-free list
insertion: adding an element already present is a no-op. -/
def setInsert (s : List Candidate) (c : Candidate) : List Candidate :=
  if c ∈ s then s else s ++ [c]

def imageExts : List (List Char) :=
  [".jpg".toList, ".jpeg".toList, ".png".toList, ".webp".toList]

def urlPatterns : List (List Char) :=
  [origMarker, "/236x/".toList, "/474x/".toList, "/736x/".toList, "/1200x/".toList,
    "i.pinimg.com".toList]

def skipPatternsNormal : List (List Char) :=
  ["/icons/".toList, "/logo/".toList, "/favicon/".toList, "/avatar/".toList,
    "/profile/".toList, "/spinner/".toList, "/loading/".toList, "/error/".toList,
    "default_".toList, "placeholder".toList, "/following/".toList,
    "profile-image".toList, "avatar.".toList, "user-image".toList,
    "default-user".toList, "icon_".toList]

def skipPatternsAd : List (List Char) :=
  ["/spinner/".toList, "/loading/".toList, "/error/".toList, "default_user".toList,
    "icon_".toList]

def toLowerStr (s : List Char) : List Char := s.map Char.toLower

/-- The image branch of `_handle_response` (pinterest_img_scraper.py, lines
456-492): the tiny-thumbnail skip, the extension/pattern gate, the conversion to
high resolution, the UI-asset denylist, and the insertion into the candidate
set.  The relevance flag computed by lines 430-454 is passed in as `isRel`, and
`adSearch` selects the narrowed denylist used for advertising searches. -/
def observeImage (minW minH : Nat) (adSearch : Bool) (s : List Candidate)
    (url : List Char) (isRel : Bool) : List Candidate :=
  if (isSubOf sixtyMarker url || isSubOf seventyFiveMarker url)
      && (decide (100 < minW) || decide (100 < minH)) then s
  else if (imageExts.any (fun e => isSubOf e (toLowerStr url)))
      && (urlPatterns.any (fun p => isSubOf p url)) then
    match convertToHighRes minW minH url with
    | none => s
    | some high =>
      if (if adSearch then skipPatternsAd else skipPatternsNormal).any
          (fun p => isSubOf p (toLowerStr url)) then s
      else setInsert s (high, isRel)
  else s

/-- `get_url_priority` (pinterest_img_scraper.py, lines 794-807). -/
def getUrlPriority (url : List Char) : Nat :=
  if isSubOf origMarker url then 5
  else if isSubOf ("/1200x/".toList) url then 4
  else if isSubOf ("/736x/".toList) url then 3
  else if isSubOf ("/474x/".toList) url then 2
  else if isSubOf ("/236x/".toList) url then 1
  else 0

/-- Stable descending insertion by `getUrlPriority`: the new element goes in
front of the first element whose priority does not exceed it.  Folded over the
list this reproduces Python's stable `sorted(key=get_url_priority,
reverse=True)`. -/
def insertDesc (x : List Char) : List (List Char) → List (List Char)
  | [] => [x]
  | y :: ys =>
    if getUrlPriority y ≤ getUrlPriority x then x :: y :: ys
    else y :: insertDesc x ys

/-- `sorted(urls, key=get_url_priority, reverse=True)` (line 809). -/
def sortByPriority (l : List (List Char)) : List (List Char) :=
  l.foldr insertDesc []

/-- `relevant_urls` (line 767). -/
def relUrls (cands : List Candidate) : List (List Char) :=
  (cands.filter (fun c => c.2)).map (fun c => c.1)

/-- `other_urls` (line 768). -/
def otherUrls (cands : List Candidate) : List (List Char) :=
  (cands.filter (fun c => !c.2)).map (fun c => c.1)

/-- The `unique_urls` selection of `_download_images` (lines 774-787).  For an
advertising search Python builds `list(set(relevant + other))`, whose iteration
order is unspecified; it is modelled as an order-preserving deduplication. -/
def selectUrls (cands : List Candidate) (limit : Nat) (adSearch : Bool) :
    List (List Char) :=
  if adSearch then (relUrls cands ++ otherUrls cands).dedup
  else if limit ≤ (relUrls cands).length then relUrls cands
  else relUrls cands ++ (otherUrls cands).take (limit - (relUrls cands).length)

/-- The planned download list of `_download_images` (lines 774-812): select,
sort by priority, then truncate to `limit` — except that a falsy (zero) limit
disables the truncation (line 812). -/
def plan (cands : List Candidate) (limit : Nat) (adSearch : Bool) :
    List (List Char) :=
  if limit ≠ 0 then (sortByPriority (selectUrls cands limit adSearch)).take limit
  else sortByPriority (selectUrls cands limit adSearch)

/-- The externally observable outcome of fetching one planned reference in
`_download_image` (pinterest_img_scraper.py, lines 825-930).  `gotoFails` means
an exception was raised inside the inner `try` before the dimension checks
(e.g. a navigation timeout); `memDims`/`fileDims` are the pixel dimensions
decoded from memory and from the stored file (`none` models a decoding
exception). -/
structure FetchOutcome where
  gotoFails : Bool
  hasResponse : Bool
  status : Nat
  contentType : List Char
  memDims : Option (Nat × Nat)
  fileDims : Option (Nat × Nat)
deriving DecidableEq

def imagePrefix : List Char := "image/".toList

/-- `_download_image` (pinterest_img_scraper.py, lines 825-930).  Returns the
pair (value returned to `_download_images`, whether a file is left on disk).
A caught exception in the inner `try` (`gotoFails`) and a decoding failure
during the final re-verification both fall through to the trailing
`return True` at line 926. -/
def downloadImage (minW minH : Nat) (o : FetchOutcome) : Bool × Bool :=
  if o.gotoFails then (true, false)
  else if !o.hasResponse || o.status != 200 then (false, false)
  else if !(imagePrefix.isPrefixOf o.contentType) then (false, false)
  else
    let afterWrite : Bool × Bool :=
      match o.fileDims with
      | some (w, h) => if w < minW ∧ h < minH then (false, false) else (true, true)
      | none => (true, true)
    match o.memDims with
    | some (w, h) => if w < minW ∧ h < minH then (false, false) else afterWrite
    | none => afterWrite

/-- The `downloaded_count` accumulation of `_download_images` (lines 819-823):
one increment per download task whose result is truthy. -/
def downloadedCount (minW minH : Nat) (outcomes : List FetchOutcome) : Nat :=
  (outcomes.filter (fun o => (downloadImage minW minH o).1)).length

/- Concrete addresses used by the witnesses and counterexamples below. -/

def u236 : List Char := "https://i.pinimg.com/236x/ab/cd/ef/img.jpg".toList

def uOrig : List Char := "https://i.pinimg.com/originals/ab/cd/ef/img.jpg".toList

def u60 : List Char := "https://i.pinimg.com/60x60/ab/cd.jpg".toList

def uDual : List Char := "https://i.pinimg.com/originals/60x60/ab.jpg".toList

def uR0 : List Char := "https://i.pinimg.com/originals/r0/r0/r0/r0.jpg".toList

def uA1 : List Char := "https://i.pinimg.com/236x/a1/a1/a1/a1.jpg".toList

def uA2 : List Char := "https://i.pinimg.com/236x/a2/a2/a2/a2.jpg".toList

def uB3 : List Char := "https://i.pinimg.com/originals/b3/b3/b3/b3.jpg".toList

def uB4 : List Char := "https://i.pinimg.com/originals/b4/b4/b4/b4.jpg".toList

def uB5 : List Char := "https://i.pinimg.com/originals/b5/b5/b5/b5.jpg".toList

/-- Scenario B candidate set: one relevant reference and five non-relevant
ones, of which the first two (in stored order) sit at the lowest tier and the
last three at the originals tier. -/
def cands5 : List Candidate :=
  [(uR0, true), (uA1, false), (uA2, false), (uB3, false), (uB4, false), (uB5, false)]

def cands6 : List Candidate := [(uOrig, true), (uA1, false), (uA2, false)]

def failOutcome : FetchOutcome :=
  { gotoFails := true, hasResponse := false, status := 0, contentType := [],
    memDims := none, fileDims := none }

def okOutcomeWide : FetchOutcome :=
  { gotoFails := false, hasResponse := true, status := 200,
    contentType := "image/jpeg".toList,
    memDims := some (1000, 500), fileDims := some (1000, 500) }

def okOutcomeSmall : FetchOutcome :=
  { gotoFails := false, hasResponse := true, status := 200,
    contentType := "image/jpeg".toList,
    memDims := some (500, 500), fileDims := some (500, 500) }

def htmlOutcome : FetchOutcome :=
  { gotoFails := false, hasResponse := true, status := 200,
    contentType := "text/html".toList, memDims := none, fileDims := none }

/- Helper lemmas about the string machinery. -/

theorem isSubOf_nil_pat (s : List Char) : isSubOf [] s = true := by
  cases s <;> simp [isSubOf]

theorem isSubOf_of_isPrefixOf {p s : List Char} (h : p.isPrefixOf s = true) :
    isSubOf p s = true := by
  cases s with
  | nil =>
    cases p with
    | nil => simp [isSubOf]
    | cons a as => simp [List.isPrefixOf] at h
  | cons c cs => simp [isSubOf, h]

theorem isSubOf_self (p : List Char) : isSubOf p p = true := by
  cases p with
  | nil => simp [isSubOf]
  | cons c cs =>
    have hp : (c :: cs).isPrefixOf (c :: cs) = true := by
      simp [List.isPrefixOf_iff_prefix]
    simp [isSubOf, hp]

theorem isPrefixOf_append_right {p s : List Char} (t : List Char)
    (h : p.isPrefixOf s = true) : p.isPrefixOf (s ++ t) = true := by
  simp only [List.isPrefixOf_iff_prefix] at h ⊢
  exact h.trans (List.prefix_append s t)

theorem isSubOf_append_left {p a : List Char} (b : List Char)
    (h : isSubOf p a = true) : isSubOf p (a ++ b) = true := by
  induction a with
  | nil =>
    simp only [isSubOf, List.isEmpty_iff] at h
    subst h
    exact isSubOf_nil_pat b
  | cons c cs ih =>
    simp only [isSubOf, Bool.or_eq_true] at h
    rcases h with h | h
    · simp only [List.cons_append, isSubOf, Bool.or_eq_true]
      exact Or.inl (isPrefixOf_append_right b h)
    · simp only [List.cons_append, isSubOf, Bool.or_eq_true]
      exact Or.inr (ih h)

theorem isSubOf_replaceAllFuel (pat rep : List Char) (hpat : pat ≠ []) :
    ∀ (f : Nat) (s : List Char), s.length ≤ f → isSubOf pat s = true →
      isSubOf rep (replaceAllFuel pat rep f s) = true := by
  intro f
  induction f with
  | zero =>
    intro s hs hsub
    have hnil : s = [] := List.eq_nil_of_length_eq_zero (Nat.le_zero.mp hs)
    subst hnil
    simp only [isSubOf, List.isEmpty_iff] at hsub
    exact absurd hsub hpat
  | succ f ih =>
    intro s hs hsub
    cases s with
    | nil =>
      simp only [isSubOf, List.isEmpty_iff] at hsub
      exact absurd hsub hpat
    | cons c cs =>
      by_cases hpre : pat.isPrefixOf (c :: cs) = true
      · show isSubOf rep
          (if pat.isPrefixOf (c :: cs) then
            rep ++ replaceAllFuel pat rep f ((c :: cs).drop pat.length)
          else c :: replaceAllFuel pat rep f cs) = true
        rw [if_pos hpre]
        exact isSubOf_append_left _ (isSubOf_self rep)
      · show isSubOf rep
          (if pat.isPrefixOf (c :: cs) then
            rep ++ replaceAllFuel pat rep f ((c :: cs).drop pat.length)
          else c :: replaceAllFuel pat rep f cs) = true
        rw [if_neg hpre]
        have hsub' : isSubOf pat cs = true := by
          simp only [isSubOf, Bool.or_eq_true] at hsub
          rcases hsub with h | h
          · exact absurd h hpre
          · exact h
        have hlen : cs.length ≤ f := by
          simp only [List.length_cons] at hs
          omega
        have := ih cs hlen hsub'
        simp [isSubOf, this]

theorem isSubOf_replaceAll (pat rep s : List Char) (hpat : pat ≠ [])
    (h : isSubOf pat s = true) : isSubOf rep (replaceAll pat rep s) = true :=
  isSubOf_replaceAllFuel pat rep hpat s.length s (Nat.le_refl _) h

/-- If the converter returns an address, that address is a fixed point of the
converter: every branch either leaves the input unchanged (and the same branch
fires again) or produces an address containing the originals marker. -/
theorem convert_some_fix (minW minH : Nat) (url r : List Char)
    (h : convertToHighRes minW minH url = some r) :
    convertToHighRes minW minH r = some r := by
  unfold convertToHighRes at h
  by_cases h1 : isSubOf origMarker url = true
  · rw [if_pos h1] at h
    injection h with h
    subst h
    simp [convertToHighRes, h1]
  · rw [if_neg h1] at h
    by_cases h2 : (isSubOf sixtyMarker url || isSubOf seventyFiveMarker url) = true
    · rw [if_pos h2] at h
      by_cases hd : 100 < minW ∨ 100 < minH
      · rw [if_pos hd] at h
        exact absurd h (by simp)
      · rw [if_neg hd] at h
        injection h with h
        subst h
        unfold convertToHighRes
        rw [if_neg h1, if_pos h2, if_neg hd]
    · rw [if_neg h2] at h
      cases hfind : resolutionPatterns.find? (fun p => isSubOf p url) with
      | some p =>
        rw [hfind] at h
        injection h with h
        subst h
        have hmem : p ∈ resolutionPatterns := List.mem_of_find?_eq_some hfind
        have hp : isSubOf p url = true := by
          simpa using List.find?_some hfind
        have hpne : p ≠ [] := by
          have hall : ∀ q ∈ resolutionPatterns, q ≠ [] := by decide
          exact hall p hmem
        have horig : isSubOf origMarker (replaceAll p origMarker url) = true :=
          isSubOf_replaceAll p origMarker url hpne hp
        simp [convertToHighRes, horig]
      | none =>
        rw [hfind] at h
        cases hsearch : pinimgSearch url with
        | some g3 =>
          rw [hsearch] at h
          injection h with h
          subst h
          have horig : isSubOf origMarker (pinimgOrig ++ g3) = true :=
            isSubOf_append_left g3 (by decide)
          simp [convertToHighRes, horig]
        | none =>
          rw [hsearch] at h
          injection h with h
          subst h
          unfold convertToHighRes
          rw [if_neg h1, if_neg h2, hfind, hsearch]

/-- Claim C8: the resolution normalizer is idempotent — applying
`_convert_to_high_res` twice yields the same result as applying it once, for
every address (in particular for all addresses of the known tier grammar). -/
theorem normalize_idempotent (minW minH : Nat) (url : List Char) :
    (convertToHighRes minW minH url).bind (convertToHighRes minW minH)
      = convertToHighRes minW minH url := by
  cases h : convertToHighRes minW minH url with
  | none => rfl
  | some r =>
    rw [Option.some_bind]
    exact convert_some_fix minW minH url r h

/-- Claim C9 (amended): an address carrying a micro-thumbnail segment that does
not also carry the originals marker is rejected by the normalizer whenever a
configured minimum dimension exceeds the absolute threshold of 100. -/
theorem micro_thumb_reject (minW minH : Nat) (url : List Char)
    (ho : isSubOf origMarker url = false)
    (hm : (isSubOf sixtyMarker url || isSubOf seventyFiveMarker url) = true)
    (hd : 100 < minW ∨ 100 < minH) :
    convertToHighRes minW minH url = none := by
  unfold convertToHighRes
  rw [if_neg (by simp [ho]), if_pos hm, if_pos hd]

/-- Claim C9 witness: a concrete micro-thumbnail address with the default
800×800 minimums is rejected. -/
theorem micro_thumb_reject_witness : convertToHighRes 800 800 u60 = none :=
  micro_thumb_reject 800 800 u60 (by decide) (by decide) (Or.inl (by decide))

/-- Claim C9 counterexample to the original statement: an address carrying both
the originals marker and a micro-thumbnail segment matches the micro-thumbnail
tier and the minimums exceed the threshold, yet the normalizer returns the
address unchanged rather than rejecting it, because the originals check fires
first. -/
theorem micro_thumb_reject_counterexample :
    (isSubOf sixtyMarker uDual || isSubOf seventyFiveMarker uDual) = true ∧
    (100 < 800 ∨ 100 < 800) ∧
    convertToHighRes 800 800 uDual = some uDual := by
  refine ⟨by decide, Or.inl (by decide), by decide⟩

/-- Claim C10: an address carrying a micro-thumbnail segment is returned
unchanged — neither rejected nor upgraded — whenever both configured minimum
dimensions are at most 100. -/
theorem micro_thumb_unchanged (minW minH : Nat) (url : List Char)
    (hm : (isSubOf sixtyMarker url || isSubOf seventyFiveMarker url) = true)
    (hw : minW ≤ 100) (hh : minH ≤ 100) :
    convertToHighRes minW minH url = some url := by
  unfold convertToHighRes
  by_cases h1 : isSubOf origMarker url = true
  · rw [if_pos h1]
  · rw [if_neg h1, if_pos hm, if_neg (by omega)]

/-- Claim C10 witness: a concrete micro-thumbnail address with 100×100
minimums is passed through unchanged. -/
theorem micro_thumb_unchanged_witness :
    convertToHighRes 100 100 u60 = some u60 :=
  micro_thumb_unchanged 100 100 u60 (by decide) (by decide) (by decide)

/- Candidate-set lemmas (claim C1). -/

theorem setInsert_length_le (s : List Candidate) (c : Candidate) :
    (setInsert s c).length ≤ s.length + 1 := by
  unfold setInsert
  split
  · omega
  · simp

theorem setInsert_self_mem (s : List Candidate) (c : Candidate) :
    c ∈ setInsert s c := by
  unfold setInsert
  split
  · assumption
  · simp

theorem setInsert_of_mem {s : List Candidate} {c : Candidate} (h : c ∈ s) :
    setInsert s c = s := by
  unfold setInsert
  rw [if_pos h]

/-- Every call of the observation handler either leaves the candidate set
unchanged or inserts the pair (converted address, relevance flag). -/
theorem observeImage_cases (minW minH : Nat) (ad : Bool) (s : List Candidate)
    (url : List Char) (b : Bool) :
    observeImage minW minH ad s url b = s ∨
    ∃ high, convertToHighRes minW minH url = some high ∧
      observeImage minW minH ad s url b = setInsert s (high, b) := by
  unfold observeImage
  by_cases h1 : ((isSubOf sixtyMarker url || isSubOf seventyFiveMarker url)
      && (decide (100 < minW) || decide (100 < minH))) = true
  · rw [if_pos h1]; exact Or.inl rfl
  · rw [if_neg h1]
    by_cases h2 : ((imageExts.any (fun e => isSubOf e (toLowerStr url)))
        && (urlPatterns.any (fun p => isSubOf p url))) = true
    · rw [if_pos h2]
      cases hconv : convertToHighRes minW minH url with
      | none => exact Or.inl rfl
      | some high =>
        by_cases hskip : ((if ad then skipPatternsAd else skipPatternsNormal).any
            (fun p => isSubOf p (toLowerStr url))) = true
        · exact Or.inl (if_pos hskip)
        · exact Or.inr ⟨high, rfl, if_neg hskip⟩
    · rw [if_neg h2]; exact Or.inl rfl

/-- Claim C1 (amended): two observations whose raw addresses normalize to the
same reference and which carry the same relevance flag grow the candidate set
by at most one element.  (With different relevance flags a second candidate can
be created: the set is keyed by the whole pair, see the counterexample.) -/
theorem dedup_same_flag (minW minH : Nat) (ad : Bool) (s : List Candidate)
    (u1 u2 : List Char) (b : Bool)
    (hnorm : convertToHighRes minW minH u1 = convertToHighRes minW minH u2) :
    (observeImage minW minH ad (observeImage minW minH ad s u1 b) u2 b).length
      ≤ s.length + 1 := by
  rcases observeImage_cases minW minH ad s u1 b with h1 | ⟨c1, hc1, h1⟩
  · rw [h1]
    rcases observeImage_cases minW minH ad s u2 b with h2 | ⟨c2, hc2, h2⟩
    · rw [h2]; omega
    · rw [h2]; exact setInsert_length_le s (c2, b)
  · rw [h1]
    rcases observeImage_cases minW minH ad (setInsert s (c1, b)) u2 b with
      h2 | ⟨c2, hc2, h2⟩
    · rw [h2]; exact setInsert_length_le s (c1, b)
    · rw [h2]
      have hcc : c1 = c2 := by
        rw [hc1, hc2] at hnorm
        injection hnorm
      subst hcc
      rw [setInsert_of_mem (setInsert_self_mem s (c1, b))]
      exact setInsert_length_le s (c1, b)

/-- Claim C1 witness: two observations of the same concrete raw address with
the same relevance flag leave at most one candidate. -/
theorem dedup_same_flag_witness :
    (observeImage 800 800 false (observeImage 800 800 false [] u236 true)
      u236 true).length ≤ 1 :=
  dedup_same_flag 800 800 false [] u236 u236 true rfl

/-- Claim C1 counterexample to the original statement: a second observation of
the same raw address with a different relevance flag creates a second
candidate, so the candidate set grows by two for the same normalized
reference. -/
theorem dedup_flag_counterexample :
    (observeImage 800 800 false (observeImage 800 800 false [] u236 true)
      u236 false).length = 2 := by decide

/- Planner lemmas (claims C5, C6, C7). -/

theorem insertDesc_length (x : List Char) (l : List (List Char)) :
    (insertDesc x l).length = l.length + 1 := by
  induction l with
  | nil => rfl
  | cons y ys ih =>
    unfold insertDesc
    split
    · simp
    · simp [ih]

theorem sortByPriority_length (l : List (List Char)) :
    (sortByPriority l).length = l.length := by
  induction l with
  | nil => rfl
  | cons x xs ih =>
    show (insertDesc x (sortByPriority xs)).length = xs.length + 1
    rw [insertDesc_length, ih]

theorem insertDesc_perm (x : List Char) (l : List (List Char)) :
    (insertDesc x l).Perm (x :: l) := by
  induction l with
  | nil => exact List.Perm.refl _
  | cons y ys ih =>
    unfold insertDesc
    split
    · exact List.Perm.refl _
    · exact (List.Perm.cons y ih).trans (List.Perm.swap x y ys)

theorem sortByPriority_perm (l : List (List Char)) :
    (sortByPriority l).Perm l := by
  induction l with
  | nil => exact List.Perm.refl _
  | cons x xs ih =>
    show (insertDesc x (sortByPriority xs)).Perm (x :: xs)
    exact (insertDesc_perm x (sortByPriority xs)).trans (List.Perm.cons x ih)

theorem insertDesc_mem {z x : List Char} {l : List (List Char)}
    (h : z ∈ insertDesc x l) : z = x ∨ z ∈ l := by
  induction l with
  | nil => simpa [insertDesc] using h
  | cons y ys ih =>
    unfold insertDesc at h
    split at h
    · simpa using h
    · rcases List.mem_cons.mp h with h | h
      · exact Or.inr (by simp [h])
      · rcases ih h with h | h
        · exact Or.inl h
        · exact Or.inr (by simp [h])

theorem insertDesc_pairwise {x : List Char} {l : List (List Char)}
    (h : l.Pairwise (fun a b => getUrlPriority b ≤ getUrlPriority a)) :
    (insertDesc x l).Pairwise
      (fun a b => getUrlPriority b ≤ getUrlPriority a) := by
  induction l with
  | nil => simp [insertDesc]
  | cons y ys ih =>
    rcases List.pairwise_cons.mp h with ⟨hy, hys⟩
    unfold insertDesc
    split
    · next hxy =>
      refine List.pairwise_cons.mpr ⟨?_, h⟩
      intro z hz
      rcases List.mem_cons.mp hz with rfl | hz
      · exact hxy
      · exact le_trans (hy z hz) hxy
    · next hxy =>
      refine List.pairwise_cons.mpr ⟨?_, ih hys⟩
      intro z hz
      rcases insertDesc_mem hz with rfl | hz
      · omega
      · exact hy z hz

theorem sortByPriority_pairwise (l : List (List Char)) :
    (sortByPriority l).Pairwise
      (fun a b => getUrlPriority b ≤ getUrlPriority a) := by
  induction l with
  | nil => simp [sortByPriority]
  | cons x xs ih =>
    show (insertDesc x (sortByPriority xs)).Pairwise _
    exact insertDesc_pairwise ih

theorem filter_insertDesc (p : Nat) (x : List Char) (l : List (List Char)) :
    (insertDesc x l).filter (fun u => decide (getUrlPriority u = p))
      = (x :: l).filter (fun u => decide (getUrlPriority u = p)) := by
  induction l with
  | nil => rfl
  | cons y ys ih =>
    unfold insertDesc
    split
    · rfl
    · next hxy =>
      by_cases hx : getUrlPriority x = p
      · have hy : ¬ (getUrlPriority y = p) := by omega
        simp [List.filter_cons, hx, hy, ih]
      · simp [List.filter_cons, hx, ih]

theorem filter_sortByPriority (p : Nat) (l : List (List Char)) :
    (sortByPriority l).filter (fun u => decide (getUrlPriority u = p))
      = l.filter (fun u => decide (getUrlPriority u = p)) := by
  induction l with
  | nil => rfl
  | cons x xs ih =>
    show (insertDesc x (sortByPriority xs)).filter _ = _
    rw [filter_insertDesc p x (sortByPriority xs)]
    rw [List.filter_cons, List.filter_cons, ih]

/-- Claim C7: the planned list is ordered by non-increasing tier priority (so a
higher-priority reference never appears after a lower-priority one), and the
sorting step is stable: within each priority class the pre-sort selection
order is preserved. -/
theorem planner_ordering (cands : List Candidate) (limit : Nat) (ad : Bool) :
    (plan cands limit ad).Pairwise
      (fun a b => getUrlPriority b ≤ getUrlPriority a) ∧
    ∀ p : Nat,
      (sortByPriority (selectUrls cands limit ad)).filter
          (fun u => decide (getUrlPriority u = p))
        = (selectUrls cands limit ad).filter
            (fun u => decide (getUrlPriority u = p)) := by
  constructor
  · unfold plan
    split
    · exact (sortByPriority_pairwise _).sublist (List.take_sublist _ _)
    · exact sortByPriority_pairwise _
  · intro p
    exact filter_sortByPriority p _

/-- Claim C5 counterexample to the original statement: with one relevant and
five non-relevant candidates and limit 3, the plan keeps the first two
non-relevant references in stored order (both at the lowest known tier) and
drops every originals-tier non-relevant reference, although the latter have
strictly higher priority. -/
theorem scenarioB_counterexample :
    plan cands5 3 false = [uR0, uA1, uA2] ∧
    getUrlPriority uA1 < getUrlPriority uB3 ∧
    uB3 ∉ plan cands5 3 false ∧ uB4 ∉ plan cands5 3 false ∧
    uB5 ∉ plan cands5 3 false := by
  refine ⟨by decide, by decide, by decide, by decide, by decide⟩

/-- Claim C5 (amended): with exactly one relevant and five non-relevant
candidates and limit 3, the plan has exactly 3 entries — the relevant
reference plus the FIRST two non-relevant references in stored order; the
tier-priority sort only reorders these three selected entries. -/
theorem scenarioB_plan (cands : List Candidate)
    (h1 : (relUrls cands).length = 1) (h2 : (otherUrls cands).length = 5) :
    (plan cands 3 false).length = 3 ∧
    (plan cands 3 false).Perm (relUrls cands ++ (otherUrls cands).take 2) := by
  have hsel : selectUrls cands 3 false
      = relUrls cands ++ (otherUrls cands).take 2 := by
    unfold selectUrls
    rw [if_neg (by simp), if_neg (by omega), h1]
  have hlen : (selectUrls cands 3 false).length = 3 := by
    rw [hsel]
    simp [List.length_take, h1, h2]
  have hplan : plan cands 3 false
      = sortByPriority (selectUrls cands 3 false) := by
    unfold plan
    rw [if_pos (by omega)]
    exact List.take_of_length_le (by rw [sortByPriority_length, hlen])
  refine ⟨?_, ?_⟩
  · rw [hplan, sortByPriority_length, hlen]
  · rw [hplan, hsel]
    exact sortByPriority_perm _

/-- Claim C5 witness: the amended statement evaluated on the concrete
scenario-B candidate set. -/
theorem scenarioB_plan_witness :
    (plan cands5 3 false).length = 3 ∧
    (plan cands5 3 false).Perm (relUrls cands5 ++ (otherUrls cands5).take 2) :=
  scenarioB_plan cands5 (by decide) (by decide)

/-- Claim C6 counterexample to the original statement: with limit 0 the code
skips the truncation (`[:limit] if limit else ...`), so the plan exceeds the
limit. -/
theorem plan_limit_zero_counterexample :
    (plan [(uOrig, true)] 0 false).length = 1 ∧
    ¬ ((plan [(uOrig, true)] 0 false).length ≤ 0) := by
  refine ⟨by decide, by decide⟩

theorem rel_other_length (cands : List Candidate) :
    (relUrls cands).length + (otherUrls cands).length = cands.length := by
  unfold relUrls otherUrls
  induction cands with
  | nil => rfl
  | cons c cs ih =>
    simp only [List.length_map] at ih ⊢
    cases hb : c.2 <;> simp [List.filter_cons, hb] <;> omega

/-- Claim C6 (amended): for every positive limit the plan never exceeds the
limit; and when the selection is not permissive, the relevant candidates fall
short of the limit, and enough non-relevant candidates exist to fill the
shortfall, the plan's length is exactly `min limit (number of candidates)`.
(The positivity hypothesis is necessary: limit 0 disables truncation.) -/
theorem plan_bound (cands : List Candidate) (limit : Nat) (ad : Bool)
    (hl : 0 < limit) :
    (plan cands limit ad).length ≤ limit ∧
    (ad = false → (relUrls cands).length < limit →
      limit - (relUrls cands).length ≤ (otherUrls cands).length →
      (plan cands limit ad).length = min limit cands.length) := by
  have hplan : plan cands limit ad
      = (sortByPriority (selectUrls cands limit ad)).take limit := by
    unfold plan
    rw [if_pos (by omega)]
  constructor
  · rw [hplan, List.length_take]
    exact Nat.min_le_left _ _
  · intro had hrel hoth
    subst had
    have hsel : selectUrls cands limit false
        = relUrls cands
            ++ (otherUrls cands).take (limit - (relUrls cands).length) := by
      unfold selectUrls
      rw [if_neg (by simp), if_neg (by omega)]
    have hlen : (selectUrls cands limit false).length = limit := by
      rw [hsel]
      simp only [List.length_append, List.length_take]
      omega
    have hcand : limit ≤ cands.length := by
      have := rel_other_length cands
      omega
    rw [hplan, List.length_take, sortByPriority_length, hlen]
    omega

/-- Claim C6 witness: the amended statement evaluated on a concrete candidate
set with one relevant and two non-relevant references and limit 2. -/
theorem plan_bound_witness :
    (plan cands6 2 false).length ≤ 2 ∧
    (plan cands6 2 false).length = min 2 cands6.length :=
  ⟨(plan_bound cands6 2 false (by decide)).1,
   (plan_bound cands6 2 false (by decide)).2 rfl (by decide) (by decide)⟩

/- Fetch-verifier theorems (claims C2, C3, C4). -/

/-- Claim C2 exhibit: a retrieval failure (an exception caught by the inner
handler, e.g. a navigation timeout) makes `_download_image` fall through to the
trailing `return True`, so `downloaded_count` is incremented although no image
was retrieved and no dimension check passed. -/
theorem download_count_retrieval_bug :
    failOutcome.gotoFails = true ∧
    downloadedCount 800 800 [failOutcome] = 1 := by
  refine ⟨rfl, by decide⟩

/-- Claim C3: for a successful image fetch whose bytes decode consistently to
`w × h`, the verifier accepts (returns true, file kept) when at least one
configured floor is met, and returns false with no file left on disk when both
dimensions are below their floors. -/
theorem verifier_leniency (minW minH w h : Nat) (o : FetchOutcome)
    (hg : o.gotoFails = false) (hr : o.hasResponse = true) (hs : o.status = 200)
    (hc : imagePrefix.isPrefixOf o.contentType = true)
    (hm : o.memDims = some (w, h)) (hf : o.fileDims = some (w, h)) :
    ((minW ≤ w ∨ minH ≤ h) → downloadImage minW minH o = (true, true)) ∧
    ((w < minW ∧ h < minH) → downloadImage minW minH o = (false, false)) := by
  constructor
  · intro hwh
    have hno : ¬ (w < minW ∧ h < minH) := by omega
    simp [downloadImage, hg, hr, hs, hc, hm, hf, hno]
  · intro hwh
    simp [downloadImage, hg, hr, hs, hc, hm, hf, hwh]

/-- Claim C3 witness: a 1000×500 image passes the 800×800 floors (width
suffices), a 500×500 image is rejected with no file left. -/
theorem verifier_leniency_witness :
    downloadImage 800 800 okOutcomeWide = (true, true) ∧
    downloadImage 800 800 okOutcomeSmall = (false, false) :=
  ⟨(verifier_leniency 800 800 1000 500 okOutcomeWide rfl rfl rfl (by decide)
      rfl rfl).1 (Or.inl (by decide)),
   (verifier_leniency 800 800 500 500 okOutcomeSmall rfl rfl rfl (by decide)
      rfl rfl).2 (by decide)⟩

/-- Claim C4: a 200 response whose content type is not an image media type
makes the verifier return false before anything is written to disk. -/
theorem content_type_gate (minW minH : Nat) (o : FetchOutcome)
    (hg : o.gotoFails = false) (hr : o.hasResponse = true) (hs : o.status = 200)
    (hc : imagePrefix.isPrefixOf o.contentType = false) :
    downloadImage minW minH o = (false, false) := by
  simp [downloadImage, hg, hr, hs, hc]

/-- Claim C4 witness: a `text/html` 200 response is rejected with no file
written. -/
theorem content_type_gate_witness :
    downloadImage 800 800 htmlOutcome = (false, false) :=
  content_type_gate 800 800 htmlOutcome rfl rfl rfl (by decide)

/-- Scenario C of the specification, verified as a by-product: a 236x-tier raw
address is rewritten to the originals tier. -/
theorem scenarioC_rewrite :
    convertToHighRes 800 800 u236 = some uOrig := by decide
